import Mathlib

/-!
Verification of the card-list rendering logic of the `remix-css-demo`
repository.

The repository renders a list of item records (title + body) as cards.
The only logic present is:

* `Card` (`app/components/Card.js`): derives a class string from the
  positional flags `isFirst`/`isLast` and the client-only media-query
  signal `isMedium` (`useMedia("(min-width: 600px)", false)`), and
  renders the item's title and body.
* an earlier revision of `Card` (here `CardRev`) that receives the item
  index, computes `isFirst = index === 0` itself, and lists the
  `CardLarge` token right after the base token.
* `Layout`: maps over the item list, passing each card its item and the
  positional flags derived from its index.

We embed these functions shallowly: JS arrays become `List`, the
`[...].filter(c => c).join(" ")` pipeline becomes
`List.filterMap id` followed by `String.intercalate " "`, and the
boolean conditions become `Bool`s.
-/

/-- An item record: `{ title: string, body: string }`. -/
structure Item where
  title : String
  body : String
deriving DecidableEq, Repr

/-- The observable output of rendering one card: the root element's class
string, the heading text (`item.title`, inside the `CardTitle` heading)
and the body text (`item.body`, inside the `CardBody` paragraph). -/
structure Rendered where
  classes : String
  titleText : String
  bodyText : String
deriving DecidableEq, Repr

/-- The class-token array built by `Card` in `app/components/Card.js`
before filtering and joining:
`["Card", isFirst ? "CardFirst" : null, isLast ? "CardLast" : null,
  isMedium && isFirst ? "CardLarge" : null].filter(c => c)`. -/
def cardTokenList (isFirst isLast isMedium : Bool) : List String :=
  ([some "Card",
    if isFirst then some "CardFirst" else none,
    if isLast then some "CardLast" else none,
    if isMedium && isFirst then some "CardLarge" else none]).filterMap id

/-- The class string of `Card` in `app/components/Card.js`:
the filtered token array joined with `" "`. -/
def cardClassName (isFirst isLast isMedium : Bool) : String :=
  String.intercalate " " (cardTokenList isFirst isLast isMedium)

/-- Card from `app/components/Card.js`: receives `item`, `isFirst`,
`isLast`; reads the ambient media signal `isMedium`; renders a `div`
with the derived class string, an `h2` with `item.title` and a `p`
with `item.body`. -/
def Card (item : Item) (isFirst isLast : Bool) (isMedium : Bool) : Rendered :=
  { classes := cardClassName isFirst isLast isMedium
    titleText := item.title
    bodyText := item.body }

/-- The class-token array of the `Card` revision in the unnamed source
file (`part_005`): `isFirst` is computed from the received `index`
(`const isFirst = index === 0`), and `CardLarge` is listed right after
the base token:
`["Card", isMedium && isFirst ? "CardLarge" : null,
  isFirst ? "CardFirst" : null, isLast ? "CardLast" : null].filter(c => c)`. -/
def cardTokenListRev (index : Nat) (isLast isMedium : Bool) : List String :=
  let isFirst := decide (index = 0)
  ([some "Card",
    if isMedium && isFirst then some "CardLarge" else none,
    if isFirst then some "CardFirst" else none,
    if isLast then some "CardLast" else none]).filterMap id

/-- The class string of the `Card` revision in `part_005`. -/
def cardClassNameRev (index : Nat) (isLast isMedium : Bool) : String :=
  String.intercalate " " (cardTokenListRev index isLast isMedium)

/-- The `Card` revision in `part_005`: receives `item`, `index`,
`isLast`, derives `isFirst` from the index, and renders the same
markup as `Card` with its own token order. -/
def CardRev (item : Item) (index : Nat) (isLast : Bool) (isMedium : Bool) : Rendered :=
  { classes := cardClassNameRev index isLast isMedium
    titleText := item.title
    bodyText := item.body }

/-- Layout (second revision in `part_004`, lines 53-67): maps over
`items`, rendering one `Card` per item with
`isFirst = (index === 0)` and `isLast = (index === items.length - 1)`. -/
def Layout (items : List Item) (isMedium : Bool) : List Rendered :=
  items.mapIdx fun index item =>
    Card item (decide (index = 0)) (decide (index = items.length - 1)) isMedium

/-- Layout (first revision in `part_004`, lines 32-45): maps over
`items`, rendering one `CardRev` per item, passing the raw `index`
and `isLast = (index === items.length - 1)`. -/
def LayoutIdx (items : List Item) (isMedium : Bool) : List Rendered :=
  items.mapIdx fun index item =>
    CardRev item index (decide (index = items.length - 1)) isMedium

/-- The ordered identifier list as §4.2 of the specification prescribes
it: start from `"Card"`, append `"CardFirst"` iff `isFirst`,
`"CardLast"` iff `isLast`, `"CardLarge"` iff
`isWideViewport && isFirst`, omitting identifiers whose condition is
false. -/
def specTokenList (isFirst isLast isWideViewport : Bool) : List String :=
  ["Card"]
    ++ (if isFirst then ["CardFirst"] else [])
    ++ (if isLast then ["CardLast"] else [])
    ++ (if isWideViewport && isFirst then ["CardLarge"] else [])

/-- The class string as §4.2 of the specification prescribes it:
the canonical identifier list joined with single spaces (no empty
tokens, no leading or trailing whitespace). -/
def specClassString (isFirst isLast isWideViewport : Bool) : String :=
  String.intercalate " " (specTokenList isFirst isLast isWideViewport)

/-- The token lists of the cards rendered by `Layout`, in order: card
`i` carries the tokens derived from `isFirst = (i = 0)`,
`isLast = (i = length - 1)` and the ambient media signal. This is the
pre-join stage of the class strings of `Layout`; see
`layout_classes_eq_layoutTokens`. -/
def layoutTokens (items : List Item) (isMedium : Bool) : List (List String) :=
  items.mapIdx fun index _ =>
    cardTokenList (decide (index = 0)) (decide (index = items.length - 1)) isMedium

/-- The demo item list served by the route loader in
`app/routes/index.jsx`. -/
def demoItems : List Item :=
  [⟨"Post 1", "First post"⟩,
   ⟨"Post 2", "Second post"⟩,
   ⟨"Post 3", "Third post"⟩,
   ⟨"Post 4", "Fourth post"⟩,
   ⟨"Post 5", "Fifth post"⟩]

/-- Modelled from the spec: the successive states of the `useMedia`
viewport signal (the hook's implementation lives in the `react-use`
library, not in this repository). The state starts at the supplied
default; each notification (the immediate read at activation, and
every later width change across the 600px boundary) replaces it with
the reported value. -/
def mediaStates (defaultState : Bool) (notifications : List Bool) : List Bool :=
  defaultState :: notifications

/-- The successive values of the first-card `CardLarge` presence over
the life of a card: one entry per render pass, starting from the
initial render (default signal `false`, as `Card` supplies to
`useMedia`), then one per notification. -/
def cardLargeTrace (isFirst isLast : Bool) (notifications : List Bool) : List Bool :=
  (mediaStates false notifications).map fun m =>
    (cardTokenList isFirst isLast m).contains "CardLarge"

/-- Number of positions at which consecutive entries of a boolean
trace differ. -/
def countChanges : List Bool → Nat
  | a :: b :: rest => (if a = b then 0 else 1) + countChanges (b :: rest)
  | _ => 0

/-- Modelled from the spec: the value read from the viewport signal
(§4.2, `useMedia` internals are outside the repository). Before the
environment-specific activation step has run, the signal reads the
supplied default; after activation it reads the environment's
predicate `viewport width ≥ 600px`. -/
def viewportSignal (activated : Bool) (envWidth : Nat) (defaultState : Bool) : Bool :=
  if activated then decide (600 ≤ envWidth) else defaultState

/-- One render pass of `Card` in an environment of width `envWidth`:
the media signal is read through `viewportSignal` with the default
`false` that `Card.js` supplies to `useMedia`. -/
def cardRenderPass (activated : Bool) (envWidth : Nat) (item : Item)
    (isFirst isLast : Bool) : Rendered :=
  Card item isFirst isLast (viewportSignal activated envWidth false)

/-! ## Helper lemmas -/

lemma cardTokenList_contains (f l m : Bool) :
    (cardTokenList f l m).contains "CardFirst" = f
    ∧ (cardTokenList f l m).contains "CardLast" = l
    ∧ (cardTokenList f l m).contains "CardLarge" = (m && f) := by
  cases f <;> cases l <;> cases m <;> decide

lemma layout_classes_eq_layoutTokens (items : List Item) (m : Bool) :
    (Layout items m).map Rendered.classes
      = (layoutTokens items m).map (String.intercalate " ") := by
  simp [Layout, layoutTokens, List.mapIdx_eq_enum_map, List.map_map, Function.comp,
    Card, cardClassName]

lemma countChanges_const (s : Bool) :
    ∀ l : List Bool, (∀ b ∈ l, b = s) → countChanges (s :: l) = 0 := by
  intro l
  induction l with
  | nil => intro _; rfl
  | cons b t ih =>
    intro h
    have hb : b = s := h b (by simp)
    subst hb
    have : countChanges (b :: t) = 0 := ih fun x hx => h x (by simp [hx])
    simp [countChanges, this]

lemma countChanges_le_one (a s : Bool) (l : List Bool) (h : ∀ b ∈ l, b = s) :
    countChanges (a :: l) ≤ 1 := by
  cases l with
  | nil => simp [countChanges]
  | cons b t =>
    have hb : b = s := h b (by simp)
    subst hb
    have h0 : countChanges (b :: t) = 0 :=
      countChanges_const b t fun x hx => (h x (by simp [hx])).trans rfl
    by_cases hab : a = b <;> simp [countChanges, hab, h0]

lemma map_mapIdx_eq {α β γ : Type} (l : List α) (f : Nat → α → β) (g : β → γ) :
    (l.mapIdx f).map g = l.mapIdx fun i a => g (f i a) := by
  simp only [List.mapIdx_eq_enum_map, List.map_map]
  rfl

lemma mapIdx_eq_map {α β : Type} (l : List α) (g : α → β) :
    (l.mapIdx fun _ a => g a) = l.map g := by
  simp only [List.mapIdx_eq_enum_map]
  rw [show (Function.uncurry fun _ (a : α) => g a) = g ∘ Prod.snd from rfl]
  rw [← List.map_map, List.enum_map_snd]

lemma countP_mapIdx_range {α β : Type} (l : List α) (g : Nat → β) (p : β → Bool) :
    ((l.mapIdx fun i _ => g i).countP p)
      = (List.range l.length).countP fun i => p (g i) := by
  induction l generalizing g with
  | nil => simp
  | cons a t ih =>
    simp only [List.mapIdx_cons, List.countP_cons, List.length_cons,
      List.range_succ_eq_map, List.countP_map]
    rw [ih fun i => g (i + 1)]
    have hfun : ((fun i => p (g i)) ∘ Nat.succ) = fun i => p (g (i + 1)) := by
      funext i
      simp [Function.comp, Nat.succ_eq_add_one]
    rw [hfun]


/-! ## Claim theorems -/

/-- C1 counterexample: the Card revision in `part_005`, rendered at
index 0 (so first), not last, with a wide viewport, joins its tokens as
`"Card CardLarge CardFirst"`, which is not the canonical ordered join
`"Card CardFirst CardLarge"` the claim states. -/
theorem cardRev_order_counterexample :
    cardClassNameRev 0 false true = "Card CardLarge CardFirst"
    ∧ specClassString true false true = "Card CardFirst CardLarge"
    ∧ cardClassNameRev 0 false true ≠ specClassString true false true := by
  decide

/-- C1 (amended): the Card in `app/components/Card.js` produces, for
every input, exactly the canonical ordered join (base, first, last,
large) with single spaces and no empty tokens; the revision in
`part_005` produces the same set of tokens (a permutation of the
canonical list), listing `CardLarge` right after the base token. -/
theorem card_classString_canonical (f l m : Bool) (index : Nat) :
    cardClassName f l m = specClassString f l m
    ∧ cardTokenList f l m = specTokenList f l m
    ∧ (cardTokenListRev index l m).Perm (specTokenList (decide (index = 0)) l m) := by
  refine ⟨?_, ?_, ?_⟩
  · cases f <;> cases l <;> cases m <;> decide
  · cases f <;> cases l <;> cases m <;> decide
  · rcases Nat.eq_zero_or_pos index with rfl | hpos
    · cases l <;> cases m <;> decide
    · have hne : (decide (index = 0)) = false := by
        simp [Nat.pos_iff_ne_zero.mp hpos]
      have he : cardTokenListRev index l m = specTokenList false l m := by
        cases l <;> cases m <;>
          simp [cardTokenListRev, specTokenList, hne]
      rw [hne, he]

/-- C2: both `Layout` revisions render exactly one card per item, and
the card rendered for the element at index `i` receives that item
unchanged, `isFirst = (i = 0)` and `isLast = (i = length - 1)` (the
first revision passes the raw index, from which its Card derives
`isFirst = (index = 0)`). -/
theorem layout_one_card_per_item (items : List Item) (m : Bool) (i : Nat) :
    (Layout items m).length = items.length
    ∧ (LayoutIdx items m).length = items.length
    ∧ (Layout items m)[i]? = (items[i]?).map (fun item =>
        Card item (decide (i = 0)) (decide (i = items.length - 1)) m)
    ∧ (LayoutIdx items m)[i]? = (items[i]?).map (fun item =>
        CardRev item i (decide (i = items.length - 1)) m) := by
  refine ⟨?_, ?_, ?_, ?_⟩ <;> simp [Layout, LayoutIdx]

/-- C3 counterexample: with notification sequence `[true, false]` (the
signal first resolves wide, then the viewport narrows below 600px),
the first card's `CardLarge` presence follows the trace
`[false, true, false]`: it changes twice, not at most once. -/
theorem cardLarge_flips_twice_counterexample :
    cardLargeTrace true false [true, false] = [false, true, false]
    ∧ countChanges (cardLargeTrace true false [true, false]) = 2 := by
  decide

/-- C3 (amended): `CardLarge` is absent on the initial render, and as
long as every notification reports the same signal value (the viewport
never crosses the 600px boundary again after the signal first
resolves), the flag changes at most once, and every pass after the
first shows its steady-state value. -/
theorem cardLarge_changes_at_most_once (f l c : Bool) (vs : List Bool)
    (h : ∀ v ∈ vs, v = c) :
    countChanges (cardLargeTrace f l vs) ≤ 1
    ∧ (cardLargeTrace f l vs).head? = some false
    ∧ ∀ b ∈ (cardLargeTrace f l vs).tail,
        b = (cardTokenList f l c).contains "CardLarge" := by
  have hg0 : (cardTokenList f l false).contains "CardLarge" = false := by
    rcases cardTokenList_contains f l false with ⟨-, -, h3⟩
    simpa using h3
  have htr : cardLargeTrace f l vs
      = ((cardTokenList f l false).contains "CardLarge")
        :: vs.map fun m => (cardTokenList f l m).contains "CardLarge" := rfl
  refine ⟨?_, ?_, ?_⟩
  · rw [htr]
    apply countChanges_le_one _ ((cardTokenList f l c).contains "CardLarge")
    intro b hb
    rcases List.mem_map.mp hb with ⟨v, hv, rfl⟩
    rw [h v hv]
  · rw [htr, hg0]
    rfl
  · intro b hb
    rw [htr] at hb
    rcases List.mem_map.mp hb with ⟨v, hv, rfl⟩
    rw [h v hv]

/-- C3 amended witness: a concrete steady signal (`[true, true]`) on
the first card. -/
theorem cardLarge_changes_at_most_once_witness :
    countChanges (cardLargeTrace true true [true, true]) ≤ 1
    ∧ (cardLargeTrace true true [true, true]).head? = some false
    ∧ ∀ b ∈ (cardLargeTrace true true [true, true]).tail,
        b = (cardTokenList true true true).contains "CardLarge" :=
  cardLarge_changes_at_most_once true true true [true, true] (by decide)

/-- C4: when the signal resolves wide, the first card's token list
gains exactly a trailing `CardLarge` (its class string gains
`" CardLarge"`), cards that are not first are entirely unchanged by
the signal, and for every card `CardFirst`/`CardLast` presence is
independent of the signal while `CardLarge` is present exactly when
the signal is wide and the card is first (so narrowing removes it). -/
theorem viewport_resolution_class_changes (f l m m' : Bool) :
    cardTokenList true l true = cardTokenList true l false ++ ["CardLarge"]
    ∧ cardClassName true l true = cardClassName true l false ++ " CardLarge"
    ∧ cardTokenList false l m = cardTokenList false l m'
    ∧ cardClassName false l m = cardClassName false l m'
    ∧ ("CardLarge" ∈ cardTokenList f l m ↔ (m && f) = true)
    ∧ ("CardFirst" ∈ cardTokenList f l m ↔ f = true)
    ∧ ("CardLast" ∈ cardTokenList f l m ↔ l = true) := by
  cases f <;> cases l <;> cases m <;> cases m' <;> decide

/-- C5: a card's token list — from either Card revision — contains
`CardLarge` only if it also contains `CardFirst`. -/
theorem cardLarge_requires_cardFirst (f l m : Bool) (index : Nat)
    (tl : List String)
    (h : tl = cardTokenList f l m ∨ tl = cardTokenListRev index l m)
    (hL : "CardLarge" ∈ tl) : "CardFirst" ∈ tl := by
  rcases h with rfl | rfl
  · revert hL
    cases f <;> cases l <;> cases m <;> decide
  · rcases Nat.eq_zero_or_pos index with rfl | hpos
    · revert hL
      cases l <;> cases m <;> decide
    · have hne : (decide (index = 0)) = false := by
        simp [Nat.pos_iff_ne_zero.mp hpos]
      revert hL
      cases l <;> cases m <;> simp [cardTokenListRev, hne]

/-- C5 witness: the first card under a wide signal carries `CardLarge`,
and the theorem yields its `CardFirst`. -/
theorem cardLarge_requires_cardFirst_witness :
    "CardFirst" ∈ cardTokenList true false true :=
  cardLarge_requires_cardFirst true false true 0 (cardTokenList true false true)
    (Or.inl rfl) (by decide)

/-- C6: on the first render pass the signal has not activated, so the
card renders with the supplied default `false` whatever the
environment width is, and such a render's token list never contains
`CardLarge`. -/
theorem first_pass_no_cardLarge (envWidth : Nat) (item : Item) (f l : Bool) :
    (cardRenderPass false envWidth item f l).classes = cardClassName f l false
    ∧ "CardLarge" ∉ cardTokenList f l false := by
  refine ⟨rfl, ?_⟩
  cases f <;> cases l <;> decide

/-- C7: for every item list with at least one element, exactly one
rendered card's token list contains `CardFirst` and exactly one
contains `CardLast`; when the list has exactly one element, the single
rendered card carries both. -/
theorem exactly_one_first_and_last (items : List Item) (m : Bool)
    (h : 1 ≤ items.length) :
    ((layoutTokens items m).countP fun ts => ts.contains "CardFirst") = 1
    ∧ ((layoutTokens items m).countP fun ts => ts.contains "CardLast") = 1
    ∧ (items.length = 1 →
        layoutTokens items m = [cardTokenList true true m]
        ∧ "CardFirst" ∈ cardTokenList true true m
        ∧ "CardLast" ∈ cardTokenList true true m) := by
  refine ⟨?_, ?_, ?_⟩
  · rw [layoutTokens, countP_mapIdx_range]
    have hcong : ∀ i ∈ List.range items.length,
        (((cardTokenList (decide (i = 0)) (decide (i = items.length - 1)) m).contains
          "CardFirst") = true) ↔ ((i == 0) = true) := by
      intro i _
      rcases cardTokenList_contains (decide (i = 0))
        (decide (i = items.length - 1)) m with ⟨h1, -, -⟩
      rw [h1]
      simp
    rw [List.countP_congr hcong, ← List.count_eq_countP]
    exact List.count_eq_one_of_mem (List.nodup_range _)
      (List.mem_range.mpr (by omega))
  · rw [layoutTokens, countP_mapIdx_range]
    have hcong : ∀ i ∈ List.range items.length,
        (((cardTokenList (decide (i = 0)) (decide (i = items.length - 1)) m).contains
          "CardLast") = true) ↔ ((i == items.length - 1) = true) := by
      intro i _
      rcases cardTokenList_contains (decide (i = 0))
        (decide (i = items.length - 1)) m with ⟨-, h2, -⟩
      rw [h2]
      simp
    rw [List.countP_congr hcong, ← List.count_eq_countP]
    exact List.count_eq_one_of_mem (List.nodup_range _)
      (List.mem_range.mpr (by omega))
  · intro h1
    obtain ⟨a, rfl⟩ : ∃ a, items = [a] := by
      cases items with
      | nil => simp at h1
      | cons a t =>
        have ht : t = [] := List.length_eq_zero.mp (by simpa using h1)
        exact ⟨a, by rw [ht]⟩
    refine ⟨rfl, ?_, ?_⟩
    · cases m <;> decide
    · cases m <;> decide

/-- C7 witness: the five-post demo list. -/
theorem exactly_one_first_and_last_witness :
    ((layoutTokens demoItems false).countP fun ts => ts.contains "CardFirst") = 1
    ∧ ((layoutTokens demoItems false).countP fun ts => ts.contains "CardLast") = 1
    ∧ (demoItems.length = 1 →
        layoutTokens demoItems false = [cardTokenList true true false]
        ∧ "CardFirst" ∈ cardTokenList true true false
        ∧ "CardLast" ∈ cardTokenList true true false) :=
  exactly_one_first_and_last demoItems false (by decide)

/-- C8: the empty list renders zero cards, in both `Layout` revisions;
both are total functions, so no error is signalled. -/
theorem empty_list_renders_zero_cards (m : Bool) :
    Layout [] m = [] ∧ LayoutIdx [] m = [] ∧ (Layout [] m).length = 0 := by
  refine ⟨?_, ?_, ?_⟩ <;> simp [Layout, LayoutIdx]

/-- C9: rendering is deterministic — equal input lists under the same
signal value render identically — and, for a fixed input list, the
heading texts, body texts and per-card `CardFirst`/`CardLast`
presences do not depend on the signal value at all, so they are
identical between the server render (default signal) and any client
render. -/
theorem render_deterministic_flags_stable (itemsA itemsB : List Item)
    (mA mB : Bool) (h : itemsA = itemsB) :
    Layout itemsA mA = Layout itemsB mA
    ∧ (Layout itemsA mA).map Rendered.titleText
        = (Layout itemsB mB).map Rendered.titleText
    ∧ (Layout itemsA mA).map Rendered.bodyText
        = (Layout itemsB mB).map Rendered.bodyText
    ∧ ((layoutTokens itemsA mA).map fun ts =>
        (ts.contains "CardFirst", ts.contains "CardLast"))
      = (layoutTokens itemsB mB).map fun ts =>
        (ts.contains "CardFirst", ts.contains "CardLast") := by
  subst h
  have hTitle : ∀ m : Bool,
      (Layout itemsA m).map Rendered.titleText = itemsA.map Item.title := by
    intro m
    simp only [Layout]
    rw [map_mapIdx_eq]
    exact mapIdx_eq_map itemsA Item.title
  have hBody : ∀ m : Bool,
      (Layout itemsA m).map Rendered.bodyText = itemsA.map Item.body := by
    intro m
    simp only [Layout]
    rw [map_mapIdx_eq]
    exact mapIdx_eq_map itemsA Item.body
  have hFlags : ∀ m : Bool,
      ((layoutTokens itemsA m).map fun ts =>
        (ts.contains "CardFirst", ts.contains "CardLast"))
      = itemsA.mapIdx fun i _ =>
          (decide (i = 0), decide (i = itemsA.length - 1)) := by
    intro m
    simp only [layoutTokens]
    rw [map_mapIdx_eq]
    congr 1
    funext i a
    rcases cardTokenList_contains (decide (i = 0))
      (decide (i = itemsA.length - 1)) m with ⟨h1, h2, -⟩
    rw [h1, h2]
  exact ⟨rfl, by rw [hTitle mA, hTitle mB], by rw [hBody mA, hBody mB],
    by rw [hFlags mA, hFlags mB]⟩

/-- C9 witness: the demo list, rendered server-side (default signal)
and client-side (wide signal). -/
theorem render_deterministic_flags_stable_witness :
    Layout demoItems false = Layout demoItems false
    ∧ (Layout demoItems false).map Rendered.titleText
        = (Layout demoItems true).map Rendered.titleText
    ∧ (Layout demoItems false).map Rendered.bodyText
        = (Layout demoItems true).map Rendered.bodyText
    ∧ ((layoutTokens demoItems false).map fun ts =>
        (ts.contains "CardFirst", ts.contains "CardLast"))
      = (layoutTokens demoItems true).map fun ts =>
        (ts.contains "CardFirst", ts.contains "CardLast") :=
  render_deterministic_flags_stable demoItems demoItems false true rfl

/-- C10: for every input (with `isFirst` corresponding to
`index = 0`), the two Card revisions produce the same heading text,
the same body text, and the same class tokens up to order: the
`part_005` token list is a permutation of the `Card.js` token list,
and each revision's class string is its own token list joined with
single spaces. -/
theorem card_revisions_equivalent (item : Item) (index : Nat) (l m : Bool) :
    (CardRev item index l m).titleText = (Card item (decide (index = 0)) l m).titleText
    ∧ (CardRev item index l m).bodyText = (Card item (decide (index = 0)) l m).bodyText
    ∧ (cardTokenListRev index l m).Perm (cardTokenList (decide (index = 0)) l m)
    ∧ (CardRev item index l m).classes
        = String.intercalate " " (cardTokenListRev index l m)
    ∧ (Card item (decide (index = 0)) l m).classes
        = String.intercalate " " (cardTokenList (decide (index = 0)) l m) := by
  refine ⟨rfl, rfl, ?_, rfl, rfl⟩
  rcases Nat.eq_zero_or_pos index with rfl | hpos
  · cases l <;> cases m <;> decide
  · have hne : (decide (index = 0)) = false := by
      simp [Nat.pos_iff_ne_zero.mp hpos]
    have he : cardTokenListRev index l m = cardTokenList false l m := by
      cases l <;> cases m <;> simp [cardTokenListRev, cardTokenList, hne]
    rw [hne, he]
